import Mathlib

/-!
Verification of the debounced-button module (`src/deBounce_Button/deBouncd_Button.c`)
against its specification.

The C module is shallowly embedded: machine integers are `Nat` with explicit
`% 2^32` where 32-bit unsigned wraparound matters (`unsigned long` on avr-gcc is
32 bits).  The three `millis()` reads inside one `updateButton` call are modelled
as a single poll time `now` (the poll's clock value); a poll trace is a list of
`(pin-register value, clock value)` pairs.  Clock values are counter readings and
hence `< 2^32`.
-/

/-- State of `struct DebouncedButton` (the session state of one button).
Pointer-valued configuration fields (`port`, `pin`, `DDRx`) are modelled as
opaque addresses; `updateButton` never dereferences them in the model — the
volatile pin-register *value* is an input of each poll. -/
structure DebouncedButton where
  previous : Nat
  ReadButtonState : Nat
  lastButtonState : Nat
  ButtonState : Nat
  debounceDelay : Nat
  port : Nat
  pin : Nat
  DDRx : Nat
  buttonPin : Nat
deriving DecidableEq

/-- `isTimeElapsed(current, previous, delay)` from the source:
`(current - previous) >= delay || current < previous`, the subtraction being
32-bit unsigned modular subtraction.  Faithful for `current, previous < 2^32`. -/
def isTimeElapsed (current previous delay : Nat) : Bool :=
  decide ((current + 2^32 - previous) % 2^32 ≥ delay) || decide (current < previous)

/-- The elapsed-time contract as the spec words it (§4.2): pure wraparound
(modulo `2^32`) difference compared against the interval, with no extra
wraparound branch.  Used to compare against `isTimeElapsed` (claim C8). -/
def elapsedSpec (current reference interval : Nat) : Bool :=
  decide ((current + 2^32 - reference) % 2^32 ≥ interval)

/-- Polarity normalisation of the pin read (line 127):
`(*(btn->pin) & (1 << btn->buttonPin)) ? 0 : 1` — active-low, bit set means
released (0), bit clear means pressed (1). -/
def readRaw (buttonPin reg : Nat) : Nat :=
  if reg.testBit buttonPin then 0 else 1

/-- One call of `updateButton` (lines 124–150).  `reg` is the current value of
the pin register, `now` the poll's clock value.  Returns the updated session
state and the C return value (1 = press event, 0 = none).  Note the early
`return 1` on a press event skips both the `previous` refresh (line 146) and
the `lastButtonState` update (line 148). -/
def updateButton (btn : DebouncedButton) (reg now : Nat) : DebouncedButton × Nat :=
  let read := readRaw btn.buttonPin reg
  let prev1 := if read ≠ btn.lastButtonState then now else btn.previous
  if isTimeElapsed now prev1 btn.debounceDelay then
    if btn.ButtonState ≠ read then
      if read ≠ 0 then
        ({ btn with ReadButtonState := read, previous := prev1, ButtonState := read }, 1)
      else
        ({ btn with ReadButtonState := read, previous := now, ButtonState := read,
                    lastButtonState := read }, 0)
    else
      ({ btn with ReadButtonState := read, previous := now, lastButtonState := read }, 0)
  else
    ({ btn with ReadButtonState := read, previous := prev1, lastButtonState := read }, 0)

/-- Run a sequence of polls, collecting the state and return value after each. -/
def runOut (btn : DebouncedButton) : List (Nat × Nat) → List (DebouncedButton × Nat)
  | [] => []
  | (reg, t) :: rest =>
      updateButton btn reg t :: runOut (updateButton btn reg t).1 rest

/-- Final session state after a sequence of polls. -/
def runButton (btn : DebouncedButton) : List (Nat × Nat) → DebouncedButton
  | [] => btn
  | (reg, t) :: rest => runButton (updateButton btn reg t).1 rest

/-- Once a poll returns a press event, the debounced state is `Pressed` (1) at
that poll and at every later poll of the trace. -/
def pressedOnward : List (DebouncedButton × Nat) → Prop
  | [] => True
  | x :: rest =>
      (x.2 = 1 → x.1.ButtonState = 1 ∧ ∀ y ∈ rest, y.1.ButtonState = 1) ∧ pressedOnward rest

-- ===== basic lemmas about the embedding =====

theorem readRaw_cases (p r : Nat) : readRaw p r = 0 ∨ readRaw p r = 1 := by
  unfold readRaw; split <;> simp

theorem isTimeElapsed_zero_delay (c p : Nat) : isTimeElapsed c p 0 = true := by
  simp [isTimeElapsed]

theorem isTimeElapsed_false_of {t p d : Nat} (h1 : p ≤ t) (h2 : t < 2^32)
    (h3 : t < p + d) : isTimeElapsed t p d = false := by
  unfold isTimeElapsed
  have hd : t + 2^32 - p = 2^32 + (t - p) := by omega
  have hm : (2^32 + (t - p)) % 2^32 = t - p := by
    rw [Nat.add_mod_left]
    exact Nat.mod_eq_of_lt (by omega)
  simp only [hd, hm, Bool.or_eq_false_iff, decide_eq_false_iff_not, not_le, not_lt]
  omega

theorem isTimeElapsed_true_of {t p d : Nat} (h1 : p ≤ t) (h2 : t < 2^32)
    (h3 : p + d ≤ t) : isTimeElapsed t p d = true := by
  unfold isTimeElapsed
  have hd : t + 2^32 - p = 2^32 + (t - p) := by omega
  have hm : (2^32 + (t - p)) % 2^32 = t - p := by
    rw [Nat.add_mod_left]
    exact Nat.mod_eq_of_lt (by omega)
  simp only [hd, hm, Bool.or_eq_true, decide_eq_true_eq]
  left; omega

theorem isTimeElapsed_same (t d : Nat) :
    isTimeElapsed t t d = decide (d = 0) := by
  unfold isTimeElapsed
  have hd : t + 2^32 - t = 2^32 := by omega
  rw [hd, Nat.mod_self]
  rcases Nat.eq_zero_or_pos d with h | h
  · subst h; simp
  · have h1 : decide (0 ≥ d) = false := by simp; omega
    have h2 : decide (t < t) = false := by simp
    have h3 : decide (d = 0) = false := by simp; omega
    rw [h1, h2, h3]; rfl

/-- `updateButton` never touches the configuration fields. -/
theorem updateButton_config (b : DebouncedButton) (reg t : Nat) :
    (updateButton b reg t).1.debounceDelay = b.debounceDelay ∧
    (updateButton b reg t).1.port = b.port ∧
    (updateButton b reg t).1.pin = b.pin ∧
    (updateButton b reg t).1.DDRx = b.DDRx ∧
    (updateButton b reg t).1.buttonPin = b.buttonPin := by
  simp only [updateButton]
  split_ifs <;> simp

/-- When the raw sample already equals the debounced state, nothing is accepted:
no event, `ButtonState` kept, `lastButtonState` tracks the raw sample, and
`previous` is either refreshed to `now` or kept. -/
theorem updateButton_bs_eq {b : DebouncedButton} {reg : Nat} (t : Nat)
    (h : b.ButtonState = readRaw b.buttonPin reg) :
    (updateButton b reg t).2 = 0 ∧
    (updateButton b reg t).1.ButtonState = b.ButtonState ∧
    (updateButton b reg t).1.lastButtonState = readRaw b.buttonPin reg ∧
    ((updateButton b reg t).1.previous = t ∨ (updateButton b reg t).1.previous = b.previous) := by
  simp only [updateButton]
  split_ifs <;> simp_all

/-- An unchanged raw sample with the elapsed guard failing leaves everything
except `ReadButtonState` untouched. -/
theorem updateButton_noelapsed {b : DebouncedButton} {reg t : Nat}
    (h : readRaw b.buttonPin reg = b.lastButtonState)
    (he : isTimeElapsed t b.previous b.debounceDelay = false) :
    (updateButton b reg t).2 = 0 ∧
    (updateButton b reg t).1.ButtonState = b.ButtonState ∧
    (updateButton b reg t).1.lastButtonState = b.lastButtonState ∧
    (updateButton b reg t).1.previous = b.previous := by
  simp only [updateButton]
  split_ifs <;> simp_all

/-- Accepting a pressed transition on an unchanged raw sample: event returned,
`ButtonState` becomes the raw sample, `previous` and `lastButtonState` are left
as they were (early return). -/
theorem updateButton_accept_nochg {b : DebouncedButton} {reg t : Nat}
    (h : readRaw b.buttonPin reg = b.lastButtonState)
    (he : isTimeElapsed t b.previous b.debounceDelay = true)
    (hne : b.ButtonState ≠ readRaw b.buttonPin reg)
    (hr : readRaw b.buttonPin reg ≠ 0) :
    (updateButton b reg t).2 = 1 ∧
    (updateButton b reg t).1.ButtonState = readRaw b.buttonPin reg ∧
    (updateButton b reg t).1.lastButtonState = b.lastButtonState ∧
    (updateButton b reg t).1.previous = b.previous := by
  simp only [updateButton]
  split_ifs <;> simp_all

/-- A raw change with a positive debounce delay restarts the stability window:
no event, `ButtonState` kept, window anchored at `now`. -/
theorem updateButton_chg_pos {b : DebouncedButton} {reg t : Nat}
    (h : readRaw b.buttonPin reg ≠ b.lastButtonState)
    (hd : b.debounceDelay ≠ 0) :
    (updateButton b reg t).2 = 0 ∧
    (updateButton b reg t).1.ButtonState = b.ButtonState ∧
    (updateButton b reg t).1.lastButtonState = readRaw b.buttonPin reg ∧
    (updateButton b reg t).1.previous = t := by
  have he : isTimeElapsed t t b.debounceDelay = false := by
    rw [isTimeElapsed_same]; simpa using hd
  simp only [updateButton]
  split_ifs <;> simp_all

/-- A raw change to pressed with a zero debounce delay is accepted at once;
the early return keeps `lastButtonState`. -/
theorem updateButton_chg_zero_press {b : DebouncedButton} {reg t : Nat}
    (h : readRaw b.buttonPin reg ≠ b.lastButtonState)
    (hd : b.debounceDelay = 0)
    (hne : b.ButtonState ≠ readRaw b.buttonPin reg)
    (hr : readRaw b.buttonPin reg ≠ 0) :
    (updateButton b reg t).2 = 1 ∧
    (updateButton b reg t).1.ButtonState = readRaw b.buttonPin reg ∧
    (updateButton b reg t).1.lastButtonState = b.lastButtonState ∧
    (updateButton b reg t).1.previous = t := by
  have he := isTimeElapsed_zero_delay t t
  simp only [updateButton]
  split_ifs <;> simp_all [hd, isTimeElapsed_zero_delay]

-- ===== trace lemmas =====

theorem runOut_append (b : DebouncedButton) (l1 l2 : List (Nat × Nat)) :
    runOut b (l1 ++ l2) = runOut b l1 ++ runOut (runButton b l1) l2 := by
  induction l1 generalizing b with
  | nil => simp [runOut, runButton]
  | cons p rest ih =>
      obtain ⟨reg, t⟩ := p
      simp [runOut, runButton, ih]

theorem runButton_append (b : DebouncedButton) (l1 l2 : List (Nat × Nat)) :
    runButton b (l1 ++ l2) = runButton (runButton b l1) l2 := by
  induction l1 generalizing b with
  | nil => simp [runButton]
  | cons p rest ih =>
      obtain ⟨reg, t⟩ := p
      simp [runButton, ih]

theorem sum_events_zero {l : List (DebouncedButton × Nat)}
    (h : ∀ o ∈ l, o.2 = 0) : (l.map Prod.snd).sum = 0 := by
  induction l with
  | nil => simp
  | cons o rest ih =>
      simp only [List.map_cons, List.sum_cons]
      rw [h o (by simp), ih (fun x hx => h x (by simp [hx]))]

theorem pressedOnward_of_zero {l : List (DebouncedButton × Nat)}
    (h : ∀ o ∈ l, o.2 = 0) : pressedOnward l := by
  induction l with
  | nil => trivial
  | cons o rest ih =>
      obtain ⟨b, e⟩ := o
      refine ⟨fun he => ?_, ih (fun x hx => h x (by simp [hx]))⟩
      have := h (b, e) (by simp)
      simp at this
      omega

theorem pressedOnward_append {l1 l2 : List (DebouncedButton × Nat)}
    (h1 : ∀ o ∈ l1, o.2 = 0) (h2 : pressedOnward l2) :
    pressedOnward (l1 ++ l2) := by
  induction l1 with
  | nil => simpa
  | cons o rest ih =>
      obtain ⟨b, e⟩ := o
      refine ⟨fun he => ?_, ih (fun x hx => h1 x (by simp [hx]))⟩
      have := h1 (b, e) (by simp)
      simp at this
      omega

/-- Quiescent runs: if the debounced state, the last sample and every raw sample
of the trace agree on one value `v`, every poll keeps the debounced state at `v`
and returns no event, and the run ends in a state with the same `v`-agreement
and the same configuration. -/
theorem run_const (v : Nat) :
    ∀ (polls : List (Nat × Nat)) (b : DebouncedButton),
    b.ButtonState = v → b.lastButtonState = v →
    (∀ p ∈ polls, readRaw b.buttonPin p.1 = v) →
    (∀ o ∈ runOut b polls, o.1.ButtonState = v ∧ o.2 = 0) ∧
    (runButton b polls).ButtonState = v ∧
    (runButton b polls).lastButtonState = v ∧
    (runButton b polls).buttonPin = b.buttonPin ∧
    (runButton b polls).debounceDelay = b.debounceDelay := by
  intro polls
  induction polls with
  | nil => intro b h1 h2 _; exact ⟨by simp [runOut], h1, h2, rfl, rfl⟩
  | cons p rest ih =>
      obtain ⟨reg, t⟩ := p
      intro b h1 h2 hr
      have hread : readRaw b.buttonPin reg = v := hr (reg, t) (by simp)
      have hbe : b.ButtonState = readRaw b.buttonPin reg := by rw [h1, hread]
      have hbs := updateButton_bs_eq t hbe
      have hcfg := updateButton_config b reg t
      have ihs := ih (updateButton b reg t).1
        (by rw [hbs.2.1, h1]) (by rw [hbs.2.2.1, hread])
        (by intro q hq; rw [hcfg.2.2.2.2]; exact hr q (by simp [hq]))
      refine ⟨?_, ?_, ?_, ?_, ?_⟩
      · intro o ho
        simp only [runOut, List.mem_cons] at ho
        rcases ho with ho | ho
        · rw [ho]; exact ⟨by rw [hbs.2.1, h1], hbs.1⟩
        · exact ihs.1 o ho
      · show (runButton b ((reg, t) :: rest)).ButtonState = v
        simp only [runButton]; exact ihs.2.1
      · simp only [runButton]; exact ihs.2.2.1
      · simp only [runButton]; rw [ihs.2.2.2.1, hcfg.2.2.2.2]
      · simp only [runButton]; rw [ihs.2.2.2.2, hcfg.1]

/-- Holding the pressed state: once the debounced state is `Pressed` (1), a run
whose raw samples are all `Pressed` keeps it at 1 and never returns an event. -/
theorem run_hold :
    ∀ (polls : List (Nat × Nat)) (b : DebouncedButton),
    b.ButtonState = 1 →
    (∀ p ∈ polls, readRaw b.buttonPin p.1 = 1) →
    (∀ o ∈ runOut b polls, o.1.ButtonState = 1 ∧ o.2 = 0) ∧
    (runButton b polls).ButtonState = 1 := by
  intro polls
  induction polls with
  | nil => intro b h1 _; exact ⟨by simp [runOut], h1⟩
  | cons p rest ih =>
      obtain ⟨reg, t⟩ := p
      intro b h1 hr
      have hread : readRaw b.buttonPin reg = 1 := hr (reg, t) (by simp)
      have hbe : b.ButtonState = readRaw b.buttonPin reg := by rw [h1, hread]
      have hbs := updateButton_bs_eq t hbe
      have hcfg := updateButton_config b reg t
      have ihs := ih (updateButton b reg t).1 (by rw [hbs.2.1, h1])
        (by intro q hq; rw [hcfg.2.2.2.2]; exact hr q (by simp [hq]))
      refine ⟨?_, ?_⟩
      · intro o ho
        simp only [runOut, List.mem_cons] at ho
        rcases ho with ho | ho
        · rw [ho]; exact ⟨by rw [hbs.2.1, h1], hbs.1⟩
        · exact ihs.1 o ho
      · simp only [runButton]; exact ihs.2

/-- Waiting for acceptance: with a pending press (debounced 0, last sample 1,
window anchored at `t1`) and a strictly increasing all-pressed poll trace that
reaches `t1 + debounceDelay`, exactly one press event is returned, the
debounced state is 1 from the event onward, and the run ends pressed. -/
theorem run_wait :
    ∀ (polls : List (Nat × Nat)) (b : DebouncedButton) (t1 : Nat),
    b.ButtonState = 0 → b.lastButtonState = 1 → b.previous = t1 →
    (∀ p ∈ polls, readRaw b.buttonPin p.1 = 1 ∧ t1 < p.2 ∧ p.2 < 2^32) →
    List.Pairwise (fun a c : Nat => a < c) (polls.map Prod.snd) →
    (∃ p ∈ polls, t1 + b.debounceDelay ≤ p.2) →
    ((runOut b polls).map Prod.snd).sum = 1 ∧
    pressedOnward (runOut b polls) ∧
    (runButton b polls).ButtonState = 1 := by
  intro polls
  induction polls with
  | nil => intro b t1 _ _ _ _ _ hex; simp at hex
  | cons p rest ih =>
      obtain ⟨reg, t⟩ := p
      intro b t1 hbs hlast hprev hr hpw hex
      obtain ⟨hread, ht1, ht32⟩ := hr (reg, t) (by simp)
      have hcfg := updateButton_config b reg t
      have hpw0 : List.Pairwise (fun a c : Nat => a < c) (t :: rest.map Prod.snd) := by
        simpa using hpw
      have hpw' := List.pairwise_cons.mp hpw0
      by_cases hel : t1 + b.debounceDelay ≤ t
      · -- the guard passes at this poll: the press is accepted here
        have he : isTimeElapsed t b.previous b.debounceDelay = true := by
          rw [hprev]; exact isTimeElapsed_true_of (Nat.le_of_lt ht1) ht32 hel
        have hh : readRaw b.buttonPin reg = b.lastButtonState := by rw [hread, hlast]
        have hacc := updateButton_accept_nochg hh he
          (by rw [hbs, hread]; omega) (by rw [hread]; omega)
        have hbs' : (updateButton b reg t).1.ButtonState = 1 := by rw [hacc.2.1, hread]
        have hrrest : ∀ q ∈ rest, readRaw (updateButton b reg t).1.buttonPin q.1 = 1 := by
          intro q hq; rw [hcfg.2.2.2.2]; exact (hr q (by simp [hq])).1
        have hhold := run_hold rest (updateButton b reg t).1 hbs' hrrest
        have hz : ∀ o ∈ runOut (updateButton b reg t).1 rest, o.2 = 0 :=
          fun o ho => (hhold.1 o ho).2
        refine ⟨?_, ?_, ?_⟩
        · simp only [runOut, List.map_cons, List.sum_cons, hacc.1]
          rw [sum_events_zero hz]
        · simp only [runOut, pressedOnward]
          refine ⟨fun _ => ⟨hbs', fun y hy => (hhold.1 y hy).1⟩, pressedOnward_of_zero hz⟩
        · simp only [runButton]; exact hhold.2
      · -- the guard fails: the poll only re-samples, the window stays anchored
        have he : isTimeElapsed t b.previous b.debounceDelay = false := by
          rw [hprev]; exact isTimeElapsed_false_of (Nat.le_of_lt ht1) ht32 (by omega)
        have hh : readRaw b.buttonPin reg = b.lastButtonState := by rw [hread, hlast]
        have hne := updateButton_noelapsed hh he
        have hex' : ∃ q ∈ rest, t1 + (updateButton b reg t).1.debounceDelay ≤ q.2 := by
          obtain ⟨q, hq, hqle⟩ := hex
          rcases List.mem_cons.mp hq with hq1 | hq1
          · exfalso; rw [hq1] at hqle; exact hel hqle
          · exact ⟨q, hq1, by rw [hcfg.1]; exact hqle⟩
        have ihs := ih (updateButton b reg t).1 t1
          (by rw [hne.2.1, hbs]) (by rw [hne.2.2.1, hlast]) (by rw [hne.2.2.2, hprev])
          (by intro q hq; rw [hcfg.2.2.2.2]; exact hr q (by simp [hq]))
          hpw'.2 hex'
        refine ⟨?_, ?_, ?_⟩
        · simp only [runOut, List.map_cons, List.sum_cons, hne.1]
          rw [ihs.1]
        · simp only [runOut, pressedOnward]
          exact ⟨fun h1 => absurd h1 (by rw [hne.1]; omega), ihs.2.1⟩
        · simp only [runButton]; exact ihs.2.2

/-- Invariant run for bounce rejection: starting with debounced state `b0` and
either an unchanged last sample or a stability window anchored inside the poll
window, a strictly increasing trace confined to `[t0, tend]` with
`tend < t0 + debounceDelay` never changes the debounced state and never
returns an event. -/
theorem bounce_aux (b0 t0 tend : Nat) :
    ∀ (polls : List (Nat × Nat)) (b : DebouncedButton),
    b.ButtonState = b0 →
    (b.lastButtonState = b0 ∨ (t0 ≤ b.previous ∧ ∀ p ∈ polls, b.previous < p.2)) →
    (∀ p ∈ polls, t0 ≤ p.2 ∧ p.2 ≤ tend ∧ p.2 < 2^32) →
    tend < t0 + b.debounceDelay →
    List.Pairwise (fun a c : Nat => a < c) (polls.map Prod.snd) →
    ∀ o ∈ runOut b polls, o.1.ButtonState = b0 ∧ o.2 = 0 := by
  intro polls
  induction polls with
  | nil => intro b _ _ _ _ _ o ho; simp [runOut] at ho
  | cons p rest ih =>
      obtain ⟨reg, t⟩ := p
      intro b hbs hinv hw hspan hpw
      obtain ⟨ht0, htend, ht32⟩ := hw (reg, t) (by simp)
      have hdpos : b.debounceDelay ≠ 0 := by omega
      have hcfg := updateButton_config b reg t
      have hpw0 : List.Pairwise (fun a c : Nat => a < c) (t :: rest.map Prod.snd) := by
        simpa using hpw
      have hpw' := List.pairwise_cons.mp hpw0
      have htrest : ∀ q ∈ rest, t < q.2 := by
        intro q hq; exact hpw'.1 q.2 (List.mem_map_of_mem Prod.snd hq)
      have hwrest : ∀ q ∈ rest, t0 ≤ q.2 ∧ q.2 ≤ tend ∧ q.2 < 2^32 :=
        fun q hq => hw q (by simp [hq])
      have hspan' : tend < t0 + (updateButton b reg t).1.debounceDelay := by
        rw [hcfg.1]; exact hspan
      by_cases hch : readRaw b.buttonPin reg = b.lastButtonState
      · by_cases hrb : readRaw b.buttonPin reg = b0
        · -- raw sample equals the debounced state: nothing can be accepted
          have hbe : b.ButtonState = readRaw b.buttonPin reg := by rw [hbs, hrb]
          have hq := updateButton_bs_eq t hbe
          have hinv' : (updateButton b reg t).1.lastButtonState = b0 ∨
              (t0 ≤ (updateButton b reg t).1.previous ∧
               ∀ q ∈ rest, (updateButton b reg t).1.previous < q.2) := by
            left; rw [hq.2.2.1, hrb]
          intro o ho
          rcases List.mem_cons.mp (by simpa [runOut] using ho) with ho1 | ho1
          · rw [ho1]; exact ⟨by rw [hq.2.1, hbs], hq.1⟩
          · exact ih (updateButton b reg t).1 (by rw [hq.2.1, hbs]) hinv'
              (by intro q hq1; exact hwrest q hq1) hspan'
              hpw'.2 o ho1
        · -- stable raw sample differing from the debounced state: the window
          -- is anchored inside [t0, t) so the guard cannot pass yet
          rcases hinv with hl | ⟨hp0, hplt⟩
          · exact absurd (hch.trans hl) hrb
          have hpt : b.previous < t := hplt (reg, t) (by simp)
          have he : isTimeElapsed t b.previous b.debounceDelay = false :=
            isTimeElapsed_false_of (Nat.le_of_lt hpt) ht32 (by omega)
          have hq := updateButton_noelapsed hch he
          intro o ho
          rcases List.mem_cons.mp (by simpa [runOut] using ho) with ho1 | ho1
          · rw [ho1]; exact ⟨by rw [hq.2.1, hbs], hq.1⟩
          · refine ih (updateButton b reg t).1 (by rw [hq.2.1, hbs]) ?_
              (by intro q hq1; exact hwrest q hq1) hspan'
              hpw'.2 o ho1
            right
            refine ⟨by rw [hq.2.2.2]; exact hp0, ?_⟩
            intro q hq1; rw [hq.2.2.2]; exact hplt q (by simp [hq1])
      · -- raw change: the stability window restarts at this poll's time
        have hq := updateButton_chg_pos (t := t) hch hdpos
        intro o ho
        rcases List.mem_cons.mp (by simpa [runOut] using ho) with ho1 | ho1
        · rw [ho1]; exact ⟨by rw [hq.2.1, hbs], hq.1⟩
        · refine ih (updateButton b reg t).1 (by rw [hq.2.1, hbs]) ?_
            (by intro q hq1; exact hwrest q hq1) hspan'
            hpw'.2 o ho1
          right
          exact ⟨by rw [hq.2.2.2]; exact ht0, by intro q hq1; rw [hq.2.2.2]; exact htrest q hq1⟩

-- ===== claim theorems =====

/-- C1 counterexample: at the exact wraparound boundary `current = 0`,
`previous = 2^32 - 1`, the wraparound difference is 1 tick, yet with
`interval = 50` the source's `isTimeElapsed` returns true — so it is NOT
equivalent to `wraparound difference ≥ interval`. -/
theorem isTimeElapsed_mod_iff_cex :
    isTimeElapsed 0 (2^32 - 1) 50 = true ∧ (0 + 2^32 - (2^32 - 1)) % 2^32 < 50 := by
  decide

/-- C1 (amended): for all 32-bit `a`, `b`, `interval`, `isTimeElapsed a b interval`
returns true iff the wraparound difference `(a - b) mod 2^32` is at least
`interval` OR `a < b` (the source's explicit overflow branch, which fires
unconditionally right after a wrap). -/
theorem isTimeElapsed_mod_iff_amended (a b interval : Nat)
    (ha : a < 2^32) (hb : b < 2^32) :
    isTimeElapsed a b interval = true ↔
      ((a + 2^32 - b) % 2^32 ≥ interval ∨ a < b) := by
  unfold isTimeElapsed
  simp

theorem isTimeElapsed_mod_iff_amended_witness :
    5 < 2^32 ∧ 3 < 2^32 ∧
    (isTimeElapsed 5 3 1 = true ↔ ((5 + 2^32 - 3) % 2^32 ≥ 1 ∨ 5 < 3)) :=
  ⟨by decide, by decide, isTimeElapsed_mod_iff_amended 5 3 1 (by decide) (by decide)⟩

/-- C8 counterexample: the source's check and the spec's pure-modular check are
different functions — after a wrap (`current = 0`, `previous = 2^32 - 1`) with
`delay = 2`, the source returns true though the modular difference is 1. -/
theorem elapsed_disjunct_cex :
    isTimeElapsed 0 (2^32 - 1) 2 = true ∧ elapsedSpec 0 (2^32 - 1) 2 = false := by
  decide

/-- C8 (amended): the second disjunct is NOT redundant under unsigned modular
subtraction; in general the source's check equals the spec's modular check
OR-ed with the explicit `current < previous` wraparound branch. -/
theorem elapsed_disjunct_characterization (c p d : Nat) :
    isTimeElapsed c p d = (elapsedSpec c p d || decide (c < p)) := rfl

/-- C5: `updateButton` returns a press event iff it accepts a transition whose
new debounced state is `Pressed` (1); an accepted transition into `Released`
(0) is silent, for every session state, register value and poll time. -/
theorem press_event_iff_accept_pressed (s : DebouncedButton) (reg t : Nat) :
    (updateButton s reg t).2 = 1 ↔
      ((updateButton s reg t).1.ButtonState ≠ s.ButtonState ∧
       (updateButton s reg t).1.ButtonState = 1) := by
  rcases readRaw_cases s.buttonPin reg with hr | hr <;>
    simp only [updateButton, hr] <;> split_ifs <;> simp_all <;> omega

/-- C6: with `debounceDelay = 0` the engine is unfiltered passthrough: the
elapsed guard holds on every poll, the debounced state is set to the raw sample
read in that poll, and a press event is returned exactly on a raw
Released-to-Pressed edge. -/
theorem zero_delay_passthrough (s : DebouncedButton) (reg t : Nat)
    (h : s.debounceDelay = 0) :
    (∀ c p : Nat, isTimeElapsed c p 0 = true) ∧
    (updateButton s reg t).1.ButtonState = readRaw s.buttonPin reg ∧
    ((updateButton s reg t).2 = 1 ↔
      (readRaw s.buttonPin reg = 1 ∧ s.ButtonState ≠ 1)) := by
  refine ⟨isTimeElapsed_zero_delay, ?_, ?_⟩ <;>
    rcases readRaw_cases s.buttonPin reg with hr | hr <;>
      simp only [updateButton, h, hr, isTimeElapsed_zero_delay] <;>
        split_ifs <;> simp_all <;> omega

theorem zero_delay_passthrough_witness :
    (⟨0, 0, 0, 0, 0, 0, 0, 0, 6⟩ : DebouncedButton).debounceDelay = 0 ∧
    ((∀ c p : Nat, isTimeElapsed c p 0 = true) ∧
     (updateButton ⟨0, 0, 0, 0, 0, 0, 0, 0, 6⟩ 0 5).1.ButtonState = readRaw 6 0 ∧
     ((updateButton ⟨0, 0, 0, 0, 0, 0, 0, 0, 6⟩ 0 5).2 = 1 ↔
       (readRaw 6 0 = 1 ∧ (⟨0, 0, 0, 0, 0, 0, 0, 0, 6⟩ : DebouncedButton).ButtonState ≠ 1))) :=
  ⟨rfl, zero_delay_passthrough ⟨0, 0, 0, 0, 0, 0, 0, 0, 6⟩ 0 5 rfl⟩

/-- C7 counterexample: `previous` is also written when the raw sample did NOT
change: with an unchanged released sample and the guard elapsed, line 146
rewrites `previous` from 0 to the poll time 100. -/
theorem previous_write_cex :
    readRaw 6 64 = (⟨0, 0, 0, 0, 50, 0, 0, 0, 6⟩ : DebouncedButton).lastButtonState ∧
    (⟨0, 0, 0, 0, 50, 0, 0, 0, 6⟩ : DebouncedButton).previous = 0 ∧
    (updateButton ⟨0, 0, 0, 0, 50, 0, 0, 0, 6⟩ 64 100).1.previous = 100 := by
  decide

/-- C7 (amended): `updateButton` writes `previous` exactly when the raw sample
differs from the previous poll's sample, or when the elapsed guard passed and
no press event was returned (line 146); in both cases it is set to the poll's
clock value, otherwise it is left unchanged. -/
theorem previous_write_characterization (s : DebouncedButton) (reg t : Nat) :
    (updateButton s reg t).1.previous =
      if readRaw s.buttonPin reg ≠ s.lastButtonState ∨
         (isTimeElapsed t
            (if readRaw s.buttonPin reg ≠ s.lastButtonState then t else s.previous)
            s.debounceDelay = true ∧ (updateButton s reg t).2 = 0)
      then t else s.previous := by
  simp only [updateButton]
  split_ifs <;> simp_all

/-- C10: frame condition of `updateButton`: the configuration fields
`debounceDelay`, `port`, `pin`, `DDRx`, `buttonPin` are unchanged by every
call, whatever the session state and inputs. -/
theorem updateButton_frame_condition (s : DebouncedButton) (reg t : Nat) :
    (updateButton s reg t).1.debounceDelay = s.debounceDelay ∧
    (updateButton s reg t).1.port = s.port ∧
    (updateButton s reg t).1.pin = s.pin ∧
    (updateButton s reg t).1.DDRx = s.DDRx ∧
    (updateButton s reg t).1.buttonPin = s.buttonPin :=
  updateButton_config s reg t

/-- C3 counterexample: a poll whose raw sample is UNCHANGED (equal to the
previous poll's sample) still flips the debounced state and returns a press
event when a pending transition's stability window expires. -/
theorem const_raw_idempotent_cex :
    readRaw 6 0 = (⟨0, 0, 1, 0, 50, 0, 0, 0, 6⟩ : DebouncedButton).lastButtonState ∧
    (updateButton ⟨0, 0, 1, 0, 50, 0, 0, 0, 6⟩ 0 60).2 = 1 ∧
    (updateButton ⟨0, 0, 1, 0, 50, 0, 0, 0, 6⟩ 0 60).1.ButtonState ≠
      (⟨0, 0, 1, 0, 50, 0, 0, 0, 6⟩ : DebouncedButton).ButtonState := by
  decide

/-- C3 (amended): repeated polls with an unchanged raw sample starting from a
quiescent session (debounced state equal to the last sample, so no transition
is pending) never alter the debounced state and never return a press event. -/
theorem const_raw_idempotent_amended (s : DebouncedButton) (polls : List (Nat × Nat))
    (hq : s.ButtonState = s.lastButtonState)
    (hr : ∀ p ∈ polls, readRaw s.buttonPin p.1 = s.lastButtonState) :
    ∀ o ∈ runOut s polls, o.1.ButtonState = s.ButtonState ∧ o.2 = 0 := by
  intro o ho
  have h := (run_const s.lastButtonState polls s hq rfl hr).1 o ho
  exact ⟨by rw [h.1, hq], h.2⟩

theorem const_raw_idempotent_amended_witness :
    (⟨0, 0, 1, 1, 50, 0, 0, 0, 6⟩ : DebouncedButton).ButtonState =
      (⟨0, 0, 1, 1, 50, 0, 0, 0, 6⟩ : DebouncedButton).lastButtonState ∧
    (∀ p ∈ [((0 : Nat), (30 : Nat))],
      readRaw 6 p.1 = (⟨0, 0, 1, 1, 50, 0, 0, 0, 6⟩ : DebouncedButton).lastButtonState) ∧
    (∀ o ∈ runOut ⟨0, 0, 1, 1, 50, 0, 0, 0, 6⟩ [((0 : Nat), (30 : Nat))],
      o.1.ButtonState = (⟨0, 0, 1, 1, 50, 0, 0, 0, 6⟩ : DebouncedButton).ButtonState ∧ o.2 = 0) :=
  ⟨rfl, by decide,
   const_raw_idempotent_amended ⟨0, 0, 1, 1, 50, 0, 0, 0, 6⟩ [((0 : Nat), (30 : Nat))]
     rfl (by decide)⟩

/-- C4: bounce rejection — starting from a quiescent session, a strictly
increasing poll trace confined to a window `[t0, tend]` shorter than the
debounce delay (the raw sample may toggle arbitrarily inside it, ending on the
starting value) changes the debounced state at no poll and returns no event. -/
theorem bounce_rejection (s : DebouncedButton) (polls : List (Nat × Nat)) (t0 tend : Nat)
    (hq : s.ButtonState = s.lastButtonState)
    (hw : ∀ p ∈ polls, t0 ≤ p.2 ∧ p.2 ≤ tend ∧ p.2 < 2^32)
    (hspan : tend < t0 + s.debounceDelay)
    (hpw : List.Pairwise (fun a c : Nat => a < c) (polls.map Prod.snd))
    (hend : ∀ p ∈ polls.getLast?.toList, readRaw s.buttonPin p.1 = s.ButtonState) :
    ∀ o ∈ runOut s polls, o.1.ButtonState = s.ButtonState ∧ o.2 = 0 :=
  bounce_aux s.ButtonState t0 tend polls s rfl (Or.inl hq.symm) hw hspan hpw

/-- C2: a raw signal that is `Released` through a prefix, then transitions to
`Pressed` and stays `Pressed`, with some pressed poll at least `debounceDelay`
ticks after the transition, yields exactly one press event over the whole
run, the debounced state is `Pressed` from the event-returning poll onward,
and the run ends with the debounced state `Pressed`. -/
theorem genuine_press_once (s : DebouncedButton) (rel prest : List (Nat × Nat)) (reg1 t1 : Nat)
    (hbs : s.ButtonState = 0) (hlast : s.lastButtonState = 0)
    (hrel : ∀ p ∈ rel, readRaw s.buttonPin p.1 = 0)
    (hpress : ∀ p ∈ (reg1, t1) :: prest, readRaw s.buttonPin p.1 = 1 ∧ p.2 < 2^32)
    (hpw : List.Pairwise (fun a c : Nat => a < c) ((rel ++ (reg1, t1) :: prest).map Prod.snd))
    (hex : ∃ p ∈ (reg1, t1) :: prest, t1 + s.debounceDelay ≤ p.2) :
    ((runOut s (rel ++ (reg1, t1) :: prest)).map Prod.snd).sum = 1 ∧
    pressedOnward (runOut s (rel ++ (reg1, t1) :: prest)) ∧
    (runButton s (rel ++ (reg1, t1) :: prest)).ButtonState = 1 := by
  have hc := run_const 0 rel s hbs hlast hrel
  have hz1 : ∀ o ∈ runOut s rel, o.2 = 0 := fun o ho => (hc.1 o ho).2
  have hpw2 : List.Pairwise (fun a c : Nat => a < c) (((reg1, t1) :: prest).map Prod.snd) :=
    (List.pairwise_append.mp (by rwa [List.map_append] at hpw)).2.1
  have hpw2' : List.Pairwise (fun a c : Nat => a < c) (t1 :: prest.map Prod.snd) := by
    simpa using hpw2
  have hpq := List.pairwise_cons.mp hpw2'
  have hbs1 : (runButton s rel).ButtonState = 0 := hc.2.1
  have hl1 : (runButton s rel).lastButtonState = 0 := hc.2.2.1
  have hpin1 : (runButton s rel).buttonPin = s.buttonPin := hc.2.2.2.1
  have hd1 : (runButton s rel).debounceDelay = s.debounceDelay := hc.2.2.2.2
  have hread1 : readRaw (runButton s rel).buttonPin reg1 = 1 := by
    rw [hpin1]; exact (hpress (reg1, t1) (by simp)).1
  have hch : readRaw (runButton s rel).buttonPin reg1 ≠ (runButton s rel).lastButtonState := by
    rw [hread1, hl1]; omega
  have hcfg2 := updateButton_config (runButton s rel) reg1 t1
  rw [runOut_append, runButton_append]
  by_cases hd : s.debounceDelay = 0
  · -- zero delay: the press is accepted at the transition poll itself
    have hzp := updateButton_chg_zero_press (t := t1)
      hch (by rw [hd1, hd]) (by rw [hbs1, hread1]; omega) (by rw [hread1]; omega)
    have hbs2 : (updateButton (runButton s rel) reg1 t1).1.ButtonState = 1 := by
      rw [hzp.2.1, hread1]
    have hrr : ∀ q ∈ prest,
        readRaw (updateButton (runButton s rel) reg1 t1).1.buttonPin q.1 = 1 := by
      intro q hq; rw [hcfg2.2.2.2.2, hpin1]; exact (hpress q (by simp [hq])).1
    have hhold := run_hold prest _ hbs2 hrr
    have hzr : ∀ o ∈ runOut (updateButton (runButton s rel) reg1 t1).1 prest, o.2 = 0 :=
      fun o ho => (hhold.1 o ho).2
    refine ⟨?_, ?_, ?_⟩
    · rw [List.map_append, List.sum_append, sum_events_zero hz1]
      simp only [runOut, List.map_cons, List.sum_cons, hzp.1]
      rw [sum_events_zero hzr]
      omega
    · refine pressedOnward_append hz1 ?_
      simp only [runOut, pressedOnward]
      exact ⟨fun _ => ⟨hbs2, fun y hy => (hhold.1 y hy).1⟩, pressedOnward_of_zero hzr⟩
    · simp only [runButton]; exact hhold.2
  · -- positive delay: the transition poll restarts the window, the event
    -- comes at the first pressed poll whose time reaches t1 + delay
    have hcp := updateButton_chg_pos (t := t1)
      hch (by rw [hd1]; exact hd)
    have hbs2 : (updateButton (runButton s rel) reg1 t1).1.ButtonState = 0 := by
      rw [hcp.2.1, hbs1]
    have hl2 : (updateButton (runButton s rel) reg1 t1).1.lastButtonState = 1 := by
      rw [hcp.2.2.1, hread1]
    have hrq : ∀ q ∈ prest,
        readRaw (updateButton (runButton s rel) reg1 t1).1.buttonPin q.1 = 1 ∧
        t1 < q.2 ∧ q.2 < 2^32 := by
      intro q hq
      exact ⟨by rw [hcfg2.2.2.2.2, hpin1]; exact (hpress q (by simp [hq])).1,
        hpq.1 q.2 (List.mem_map_of_mem Prod.snd hq), (hpress q (by simp [hq])).2⟩
    have hex' : ∃ q ∈ prest,
        t1 + (updateButton (runButton s rel) reg1 t1).1.debounceDelay ≤ q.2 := by
      obtain ⟨q, hq, hqle⟩ := hex
      rcases List.mem_cons.mp hq with h1 | h1
      · exfalso; rw [h1] at hqle; simp at hqle; exact hd (by omega)
      · exact ⟨q, h1, by rw [hcfg2.1, hd1]; exact hqle⟩
    have hwait := run_wait prest _ t1 hbs2 hl2 hcp.2.2.2 hrq hpq.2 hex'
    refine ⟨?_, ?_, ?_⟩
    · rw [List.map_append, List.sum_append, sum_events_zero hz1]
      simp only [runOut, List.map_cons, List.sum_cons, hcp.1]
      rw [hwait.1]
      omega
    · refine pressedOnward_append hz1 ?_
      simp only [runOut, pressedOnward]
      exact ⟨fun h1 => absurd h1 (by rw [hcp.1]; omega), hwait.2.1⟩
    · simp only [runButton]; exact hwait.2.2

theorem genuine_press_once_witness :
    (⟨0, 0, 0, 0, 2, 0, 0, 0, 6⟩ : DebouncedButton).ButtonState = 0 ∧
    (⟨0, 0, 0, 0, 2, 0, 0, 0, 6⟩ : DebouncedButton).lastButtonState = 0 ∧
    (∀ p ∈ [((64 : Nat), (0 : Nat))], readRaw 6 p.1 = 0) ∧
    (∀ p ∈ [((0 : Nat), (1 : Nat)), (0, 3)], readRaw 6 p.1 = 1 ∧ p.2 < 2^32) ∧
    List.Pairwise (fun a c : Nat => a < c)
      (([((64 : Nat), (0 : Nat))] ++ [((0 : Nat), (1 : Nat)), (0, 3)]).map Prod.snd) ∧
    (∃ p ∈ [((0 : Nat), (1 : Nat)), (0, 3)],
      1 + (⟨0, 0, 0, 0, 2, 0, 0, 0, 6⟩ : DebouncedButton).debounceDelay ≤ p.2) ∧
    (((runOut ⟨0, 0, 0, 0, 2, 0, 0, 0, 6⟩
        ([((64 : Nat), (0 : Nat))] ++ [((0 : Nat), (1 : Nat)), (0, 3)])).map Prod.snd).sum = 1 ∧
     pressedOnward (runOut ⟨0, 0, 0, 0, 2, 0, 0, 0, 6⟩
        ([((64 : Nat), (0 : Nat))] ++ [((0 : Nat), (1 : Nat)), (0, 3)])) ∧
     (runButton ⟨0, 0, 0, 0, 2, 0, 0, 0, 6⟩
        ([((64 : Nat), (0 : Nat))] ++ [((0 : Nat), (1 : Nat)), (0, 3)])).ButtonState = 1) :=
  ⟨rfl, rfl, by decide, by decide, by decide, by decide,
   genuine_press_once ⟨0, 0, 0, 0, 2, 0, 0, 0, 6⟩ [((64 : Nat), (0 : Nat))] [((0 : Nat), (3 : Nat))]
     0 1 rfl rfl (by decide) (by decide) (by decide) (by decide)⟩

theorem bounce_rejection_witness :
    (⟨5, 0, 0, 0, 50, 0, 0, 0, 6⟩ : DebouncedButton).ButtonState =
      (⟨5, 0, 0, 0, 50, 0, 0, 0, 6⟩ : DebouncedButton).lastButtonState ∧
    (∀ p ∈ [((0 : Nat), (10 : Nat)), (64, 15), (0, 20), (64, 25)],
      10 ≤ p.2 ∧ p.2 ≤ 25 ∧ p.2 < 2^32) ∧
    25 < 10 + (⟨5, 0, 0, 0, 50, 0, 0, 0, 6⟩ : DebouncedButton).debounceDelay ∧
    List.Pairwise (fun a c : Nat => a < c)
      ([((0 : Nat), (10 : Nat)), (64, 15), (0, 20), (64, 25)].map Prod.snd) ∧
    (∀ p ∈ [((0 : Nat), (10 : Nat)), (64, 15), (0, 20), (64, 25)].getLast?.toList,
      readRaw 6 p.1 = (⟨5, 0, 0, 0, 50, 0, 0, 0, 6⟩ : DebouncedButton).ButtonState) ∧
    (∀ o ∈ runOut ⟨5, 0, 0, 0, 50, 0, 0, 0, 6⟩
        [((0 : Nat), (10 : Nat)), (64, 15), (0, 20), (64, 25)],
      o.1.ButtonState = (⟨5, 0, 0, 0, 50, 0, 0, 0, 6⟩ : DebouncedButton).ButtonState ∧ o.2 = 0) :=
  ⟨rfl, by decide, by decide, by decide, by decide,
   bounce_rejection ⟨5, 0, 0, 0, 50, 0, 0, 0, 6⟩
     [((0 : Nat), (10 : Nat)), (64, 15), (0, 20), (64, 25)] 10 25
     rfl (by decide) (by decide) (by decide) (by decide)⟩
